import Mathlib

/-!
Shallow embedding of the query-admission and ingestion core of the ai_bot
repository (src/app.py, src/bot.py): the response cache and its opportunistic
sweep, the fixed-window rate limiter, the ask endpoint built from the
cache-decorator around the rate-limited handler, the answer shaping in
DocumentBot.answer_question, the hash-deduplicating document loader, and the
zero-document check in DocumentBot.setup_bot.  Timestamps are modelled as
integers; Python dicts are modelled as association lists where an insert
removes the previous binding for the key.
-/

namespace AiBot

/-- Lookup in the association-list model of a Python dict. -/
def dictFind {α : Type} (d : List (String × α)) (k : String) : Option α :=
  match d with
  | [] => none
  | (k', v) :: rest => if k' = k then some v else dictFind rest k

/-- Insertion in the association-list model of a Python dict: the previous
binding for the key, if any, is removed. -/
def dictInsert {α : Type} (d : List (String × α)) (k : String) (v : α) :
    List (String × α) :=
  (k, v) :: d.filter (fun e => e.1 ≠ k)

/-- `CACHE_DURATION = 3600` from src/app.py line 34. -/
def CACHE_DURATION : Int := 3600

/-- The cache key computed by the `cache_response` wrapper
(src/app.py line 40): `str(request.form.get('question', ''))`, i.e. the raw
question text from the form, with no whitespace trimming or other
normalization. -/
def cache_key_of (question : String) : String := question

/-- `clean_cache` (src/app.py lines 62-70): delete every entry whose age
exceeds `CACHE_DURATION` (strictly). -/
def clean_cache {α : Type} (now : Int) (cache : List (String × α × Int)) :
    List (String × α × Int) :=
  cache.filter (fun e => ¬ (now - e.2.2 > CACHE_DURATION))

/-- The `cache_response` decorator body (src/app.py lines 36-60) as a function
of the wrapped computation, the raw question text, the current time, and the
cache state.  Returns the response, the new cache state, and a flag telling
whether the wrapped function was invoked.  A fresh entry is returned as is
(no recomputation, no timestamp refresh); otherwise the wrapped function runs,
its result is stored under the key with the current time, and `clean_cache`
sweeps expired entries. -/
def cache_response {α : Type} (compute : Unit → α) (question : String)
    (now : Int) (cache : List (String × α × Int)) :
    α × List (String × α × Int) × Bool :=
  let key := cache_key_of question
  let recompute : α × List (String × α × Int) × Bool :=
    let response := compute ()
    (response, clean_cache now (dictInsert cache key (response, now)), true)
  match dictFind cache key with
  | some (resp, ts) =>
      if now - ts < CACHE_DURATION then (resp, cache, false) else recompute
  | none => recompute

/-- `rate_limit_check` (src/app.py lines 72-97) as a function of the limits,
the client ip, the current time and the rate-limit dict; returns the verdict
and the new dict.  First all entries whose window has elapsed are dropped;
then a present client is denied once its count has reached `max_requests`
and otherwise re-counted against its existing window start, while an absent
client gets a fresh record `(1, now)`. -/
def rate_limit_check (max_requests : Nat) (time_window : Int)
    (client_ip : String) (now : Int) (data : List (String × Nat × Int)) :
    Bool × List (String × Nat × Int) :=
  let data := data.filter (fun e => now - e.2.2 < time_window)
  match dictFind data client_ip with
  | some (count, ts) =>
      if now - ts < time_window then
        if count ≥ max_requests then (false, data)
        else (true, dictInsert data client_ip (count + 1, ts))
      else (true, data)
  | none => (true, dictInsert data client_ip (1, now))

/-- Iterate `rate_limit_check` over a list of call times for one client,
collecting the verdicts and threading the rate-limit dict. -/
def rl_run (max_requests : Nat) (time_window : Int) (client_ip : String) :
    List Int → List (String × Nat × Int) →
    List Bool × List (String × Nat × Int)
  | [], data => ([], data)
  | t :: ts, data =>
    let r := rate_limit_check max_requests time_window client_ip t data
    let rest := rl_run max_requests time_window client_ip ts r.2
    (r.1 :: rest.1, rest.2)

/-- A retrieved chunk as langchain's `Document`: page content plus an
open-ended metadata map (src/bot.py, `doc.page_content` / `doc.metadata`). -/
structure Doc where
  page_content : String
  metadata : List (String × String)
  deriving DecidableEq, Repr

/-- One entry of the `sources` list built by `answer_question`
(src/bot.py lines 248-251). -/
structure Source where
  content : String
  metadata : List (String × String)
  deriving DecidableEq, Repr

/-- The response dict returned by `answer_question` (src/bot.py lines
255-258 and 266-269). -/
structure BotResponse where
  answer : String
  sources : List Source
  deriving DecidableEq, Repr

/-- The result of the QA chain call `self.qa({"query": question})`
(src/bot.py line 235): the generated answer plus the source documents. -/
structure QAResult where
  result : String
  source_documents : List Doc
  deriving DecidableEq, Repr

/-- The `response_format` section of the configuration as read by
`answer_question` via `.get` with defaults (src/bot.py lines 237-250):
`max_sources` defaults to 5, `filter_duplicates` and `include_metadata`
default to `True`. -/
structure ResponseFormat where
  max_sources : Option Nat
  filter_duplicates : Option Bool
  include_metadata : Option Bool
  deriving DecidableEq, Repr

/-- The fixed fallback answer text of `answer_question`
(src/bot.py line 267). -/
def FALLBACK_ANSWER : String := "عذراً، حدث خطأ في معالجة سؤالك."

/-- The source-building loop of `answer_question` (src/bot.py lines 241-253):
walk the (already truncated) document list with a set of seen contents; skip
a document whose content was seen when `filter_duplicates` (default true) is
set; otherwise emit a source carrying the full metadata map when
`include_metadata` (default true) is set and an empty map otherwise, and
record the content as seen. -/
def build_sources (rf : ResponseFormat) :
    List Doc → List String → List Source
  | [], _ => []
  | doc :: rest, seen =>
    if seen.contains doc.page_content && rf.filter_duplicates.getD true then
      build_sources rf rest seen
    else
      { content := doc.page_content,
        metadata :=
          if rf.include_metadata.getD true then doc.metadata else [] }
        :: build_sources rf rest (doc.page_content :: seen)

/-- `DocumentBot.answer_question` (src/bot.py lines 223-269).  The QA chain
call (embedding, retrieval, completion) is the fallible boundary, modelled as
an `Except`-valued function; any failure inside the `try` block is caught and
converted into the fixed fallback answer with an empty source list.  On
success the first `max_sources` source documents are shaped by
`build_sources`. -/
def answer_question (rf : ResponseFormat)
    (qa : String → Except String QAResult) (question : String) : BotResponse :=
  match qa question with
  | Except.error _ => { answer := FALLBACK_ANSWER, sources := [] }
  | Except.ok result =>
    let max_sources := rf.max_sources.getD 5
    { answer := result.result,
      sources := build_sources rf (result.source_documents.take max_sources) [] }

/-- An `APIError` raised by the `ask` handler (src/app.py lines 99-104). -/
structure APIErr where
  message : String
  status_code : Nat
  deriving DecidableEq, Repr

/-- Default `max_requests` of `rate_limit_check` (src/app.py line 72), used
by the `ask` handler's bare call `rate_limit_check()`. -/
def RATE_LIMIT_MAX : Nat := 100

/-- Default `time_window` of `rate_limit_check` (src/app.py line 72). -/
def RATE_LIMIT_WINDOW : Int := 3600

/-- The process-wide mutable state of the app: the response cache
(`response_cache`, src/app.py line 33) and the rate-limit dict
(`app.rate_limit_data`, src/app.py lines 77-78). -/
structure ServerState where
  cache : List (String × BotResponse × Int)
  rate_data : List (String × Nat × Int)
  deriving DecidableEq, Repr

/-- Python's `str.strip()` as used on the question (src/app.py line 137):
drop leading and trailing whitespace characters. -/
def py_strip (s : String) : String :=
  String.mk
    (((s.data.dropWhile Char.isWhitespace).reverse.dropWhile
        Char.isWhitespace).reverse)

/-- The body of the `ask` view function (src/app.py lines 128-152), without
its caching decorator: the rate-limit admission check runs first and a denial
raises the 429 `APIError`; an unavailable bot raises 503; then the question
is stripped and an empty one raises 400; otherwise the bot answers the
stripped question.  Raised `APIError`s are modelled as `Except.error`. -/
def ask_inner (bot_available : Bool) (bot_answer : String → BotResponse)
    (question client_ip : String) (now : Int)
    (rate_data : List (String × Nat × Int)) :
    Except APIErr BotResponse × List (String × Nat × Int) :=
  let rl := rate_limit_check RATE_LIMIT_MAX RATE_LIMIT_WINDOW client_ip now
      rate_data
  if rl.1 = false then
    (Except.error { message := "تم تجاوز حد الطلبات المسموح به",
                    status_code := 429 }, rl.2)
  else if bot_available = false then
    (Except.error { message := "البوت غير متاح حالياً",
                    status_code := 503 }, rl.2)
  else
    let q := py_strip question
    if q = "" then
      (Except.error { message := "الرجاء إدخال سؤال", status_code := 400 },
       rl.2)
    else (Except.ok (bot_answer q), rl.2)

/-- The complete `/api/ask` request handling: the `cache_response` wrapper
applied to the `ask` view (src/app.py lines 126-152).  The wrapper first looks
the raw question up in the cache and returns a fresh entry directly, touching
neither the rate-limit state nor the cache; only on a miss or expired entry
does it invoke `ask`, whose successful response is then stored under the key
and the cache swept, while a raised `APIError` propagates uncached.  The
returned flag tells whether the wrapped `ask` was invoked. -/
def handle_ask (bot_available : Bool) (bot_answer : String → BotResponse)
    (question client_ip : String) (now : Int) (st : ServerState) :
    Except APIErr BotResponse × ServerState × Bool :=
  let key := cache_key_of question
  let recompute : Except APIErr BotResponse × ServerState × Bool :=
    let res := ask_inner bot_available bot_answer question client_ip now
        st.rate_data
    match res.1 with
    | Except.ok r =>
        (Except.ok r,
         { cache := clean_cache now (dictInsert st.cache key (r, now)),
           rate_data := res.2 }, true)
    | Except.error e =>
        (Except.error e, { cache := st.cache, rate_data := res.2 }, true)
  match dictFind st.cache key with
  | some (resp, ts) =>
      if now - ts < CACHE_DURATION then (Except.ok resp, st, false)
      else recompute
  | none => recompute

/-- One file of an ingestion batch as seen by the dedup loop of
`DocumentManager.load_documents` (src/bot.py lines 97-108): the content hash
`_get_file_hash` would compute for it, and the result of
`load_single_document` (`none` models both a skipped/failed load and a raised
exception; `some []` a loader returning an empty, hence falsy, list). -/
structure FileEntry where
  hash : String
  docs : Option (List Doc)
  deriving DecidableEq, Repr

/-- The dedup loop of `DocumentManager.load_documents` (src/bot.py lines
97-108): a file with a falsy load result contributes nothing; otherwise its
hash is computed and, only when not yet processed, its documents are appended
and the hash recorded. -/
def load_documents_loop :
    List FileEntry → List Doc → List String → List Doc × List String
  | [], documents, hashes => (documents, hashes)
  | f :: rest, documents, hashes =>
    match f.docs with
    | none => load_documents_loop rest documents hashes
    | some ds =>
      if ds.isEmpty then load_documents_loop rest documents hashes
      else if hashes.contains f.hash then
        load_documents_loop rest documents hashes
      else load_documents_loop rest (documents ++ ds) (f.hash :: hashes)

/-- `DocumentManager.load_documents` (src/bot.py lines 79-110) on a batch of
files in completion order: returns the retained documents and the set of
processed hashes. -/
def load_documents (files : List FileEntry) : List Doc × List String :=
  load_documents_loop files [] []

/-- The message of the `ValueError` raised by `setup_bot` when no documents
were loaded (src/bot.py line 165). -/
def NO_DOCUMENTS_MSG : String := "لم يتم العثور على مستندات في المجلد المحدد"

/-- `DocumentBot.setup_bot` (src/bot.py lines 153-221): load the documents,
raise a `ValueError` when none were found, and otherwise continue with the
splitter / vector store / QA-chain construction, abstracted as the fallible
continuation `build`.  The surrounding `try` re-raises, so a failure aborts
startup. -/
def setup_bot {α : Type} (files : List FileEntry)
    (build : List Doc → Except String α) : Except String α :=
  let documents := (load_documents files).1
  if documents.isEmpty then Except.error NO_DOCUMENTS_MSG
  else build documents

/-- The complete fallback response dict returned by `answer_question` on a
caught exception (src/bot.py lines 266-269). -/
def fallback_response : BotResponse :=
  { answer := FALLBACK_ANSWER, sources := [] }

/-- A `response_format` configuration section with every key absent, so all
defaults apply (`max_sources = 5`, `filter_duplicates = True`,
`include_metadata = True`). -/
def rf_defaults : ResponseFormat := ⟨none, none, none⟩

/-- A `response_format` configuration section that switches duplicate
filtering off explicitly. -/
def rf_nofilter : ResponseFormat := ⟨some 5, some false, some true⟩

/-- A QA chain stub that always succeeds with the given result — the
boundary behaviour of `self.qa` on a healthy run. -/
def qa_const (r : QAResult) : String → Except String QAResult :=
  fun _ => Except.ok r

/-- A retrieval result with one chunk whose open-ended metadata carries keys
named by no allow-list. -/
def qr_secret : QAResult :=
  ⟨"ans", [⟨"c", [("internal_secret", "x"), ("tmp_debug", "y")]⟩]⟩

/-- A retrieval result with one chunk carrying metadata key "k". -/
def qr_kv : QAResult := ⟨"ans", [⟨"c", [("k", "v")]⟩]⟩

/-- A retrieval result with two chunks of identical content. -/
def qr_dup : QAResult := ⟨"ans", [⟨"dup", []⟩, ⟨"dup", []⟩]⟩

/-- A retrieval result with three chunks, two of identical content. -/
def qr_aab : QAResult := ⟨"ans", [⟨"a", []⟩, ⟨"a", []⟩, ⟨"b", []⟩]⟩

/-!  ## Helper lemmas  -/

/-- Looking up the key at the head of a dict. -/
theorem dictFind_cons_self {α : Type} (k : String) (v : α)
    (d : List (String × α)) : dictFind ((k, v) :: d) k = some v := by
  simp [dictFind]

/-- An entry written at the current instant survives the expiry sweep. -/
theorem clean_cache_cons_fresh {α : Type} (now : Int) (k : String) (v : α)
    (d : List (String × α × Int)) :
    clean_cache now ((k, (v, now)) :: d)
      = (k, (v, now)) :: clean_cache now d := by
  have h : ¬ (now - now > CACHE_DURATION) := by simp [CACHE_DURATION]
  simp [clean_cache, List.filter_cons, h]
  decide

/-- A fresh cache entry is returned as is: no recomputation, no state
change. -/
theorem cache_response_hit {α : Type} (compute : Unit → α) (q : String)
    (now ts : Int) (cache : List (String × α × Int)) (v : α)
    (hfind : dictFind cache (cache_key_of q) = some (v, ts))
    (hfresh : now - ts < CACHE_DURATION) :
    cache_response compute q now cache = (v, cache, false) := by
  simp [cache_response, hfind, hfresh]

/-- A missing key forces recomputation and a store at the current time. -/
theorem cache_response_miss {α : Type} (compute : Unit → α) (q : String)
    (now : Int) (cache : List (String × α × Int))
    (hfind : dictFind cache (cache_key_of q) = none) :
    cache_response compute q now cache
      = (compute (),
         clean_cache now
           (dictInsert cache (cache_key_of q) (compute (), now)), true) := by
  simp [cache_response, hfind]

/-- An expired entry forces recomputation and a store at the current time. -/
theorem cache_response_stale {α : Type} (compute : Unit → α) (q : String)
    (now ts : Int) (cache : List (String × α × Int)) (v : α)
    (hfind : dictFind cache (cache_key_of q) = some (v, ts))
    (hexp : CACHE_DURATION ≤ now - ts) :
    cache_response compute q now cache
      = (compute (),
         clean_cache now
           (dictInsert cache (cache_key_of q) (compute (), now)), true) := by
  have h : ¬ (now - ts < CACHE_DURATION) := by omega
  simp [cache_response, hfind, h]

/-- The cache state produced by storing under key `q` at time `now` exposes
the stored pair on lookup. -/
theorem dictFind_store_self {α : Type} (q : String) (v : α) (now : Int)
    (cache : List (String × α × Int)) :
    dictFind (clean_cache now (dictInsert cache q (v, now))) q
      = some (v, now) := by
  rw [show dictInsert cache q (v, now)
        = (q, (v, now)) :: cache.filter (fun e => e.1 ≠ q) from rfl,
     clean_cache_cons_fresh]
  exact dictFind_cons_self q (v, now) _

/-!  ## Claim theorems  -/

/-- C3: starting from a state where the key is absent, the first
`cache_response` call invokes the wrapped computation (flag `true`) and
stores `(v₁, t₁)` under the key; a second call within `CACHE_DURATION`
returns the stored value with the whole cache — hence the entry's write
timestamp — unchanged and without invoking the computation (flag `false`),
so across the two calls the computation ran exactly once; a third call made
once the TTL has elapsed invokes the computation again and stores the new
value with the fresh timestamp `t₃`. -/
theorem cache_ttl_semantics {α : Type} (v₁ v₂ : α) (q : String)
    (t₁ t₂ t₃ : Int) (cache₀ : List (String × α × Int))
    (hmiss : dictFind cache₀ (cache_key_of q) = none)
    (hfresh : t₂ - t₁ < CACHE_DURATION)
    (hexp : CACHE_DURATION ≤ t₃ - t₁) :
    (cache_response (fun _ => v₁) q t₁ cache₀).2.2 = true ∧
    dictFind (cache_response (fun _ => v₁) q t₁ cache₀).2.1 (cache_key_of q)
      = some (v₁, t₁) ∧
    cache_response (fun _ => v₂) q t₂
        (cache_response (fun _ => v₁) q t₁ cache₀).2.1
      = (v₁, (cache_response (fun _ => v₁) q t₁ cache₀).2.1, false) ∧
    (cache_response (fun _ => v₂) q t₃
        (cache_response (fun _ => v₁) q t₁ cache₀).2.1).2.2 = true ∧
    dictFind (cache_response (fun _ => v₂) q t₃
        (cache_response (fun _ => v₁) q t₁ cache₀).2.1).2.1 (cache_key_of q)
      = some (v₂, t₃) := by
  have hc1 := cache_response_miss (fun _ => v₁) q t₁ cache₀ hmiss
  have hfind1 : dictFind (cache_response (fun _ => v₁) q t₁ cache₀).2.1
      (cache_key_of q) = some (v₁, t₁) := by
    rw [hc1]
    exact dictFind_store_self q v₁ t₁ cache₀
  refine ⟨by rw [hc1], hfind1, ?_, ?_, ?_⟩
  · exact cache_response_hit (fun _ => v₂) q t₂ t₁ _ v₁ hfind1 hfresh
  · rw [cache_response_stale (fun _ => v₂) q t₃ t₁ _ v₁ hfind1 hexp]
  · rw [cache_response_stale (fun _ => v₂) q t₃ t₁ _ v₁ hfind1 hexp]
    exact dictFind_store_self q v₂ t₃ _

/-- Witness for C3 at key "q", values 1 and 2, times 0, 1 and 3600. -/
theorem cache_ttl_semantics_witness :
    (cache_response (fun _ => (1 : Nat)) "q" 0 []).2.2 = true ∧
    dictFind (cache_response (fun _ => (1 : Nat)) "q" 0 []).2.1
      (cache_key_of "q") = some (1, 0) ∧
    cache_response (fun _ => (2 : Nat)) "q" 1
        (cache_response (fun _ => (1 : Nat)) "q" 0 []).2.1
      = (1, (cache_response (fun _ => (1 : Nat)) "q" 0 []).2.1, false) ∧
    (cache_response (fun _ => (2 : Nat)) "q" 3600
        (cache_response (fun _ => (1 : Nat)) "q" 0 []).2.1).2.2 = true ∧
    dictFind (cache_response (fun _ => (2 : Nat)) "q" 3600
        (cache_response (fun _ => (1 : Nat)) "q" 0 []).2.1).2.1
      (cache_key_of "q") = some (2, 3600) :=
  cache_ttl_semantics 1 2 "q" 0 1 3600 [] rfl (by decide) (by decide)

/-- A client with no record gets a fresh record `(1, now)` and is allowed. -/
theorem rate_limit_check_fresh (N : Nat) (W : Int) (ip : String) (now : Int) :
    rate_limit_check N W ip now [] = (true, [(ip, (1, now))]) := by
  simp [rate_limit_check, dictFind, dictInsert]

/-- A client inside a live window and under the limit is allowed and its
count incremented, keeping the window start. -/
theorem rate_limit_check_under (N : Nat) (W : Int) (ip : String)
    (c : Nat) (t₀ now : Int) (hin : now - t₀ < W) (hc : c < N) :
    rate_limit_check N W ip now [(ip, (c, t₀))]
      = (true, [(ip, (c + 1, t₀))]) := by
  have hnc : ¬ (c ≥ N) := by omega
  simp [rate_limit_check, dictFind, dictInsert, List.filter_cons, hin, hnc]

/-- A client inside a live window whose count has reached the limit is
denied and its record left unchanged. -/
theorem rate_limit_check_denied (N : Nat) (W : Int) (ip : String)
    (c : Nat) (t₀ now : Int) (hin : now - t₀ < W) (hc : c ≥ N) :
    rate_limit_check N W ip now [(ip, (c, t₀))]
      = (false, [(ip, (c, t₀))]) := by
  simp [rate_limit_check, dictFind, dictInsert, List.filter_cons, hin, hc]

/-- Once the window has elapsed the record is dropped by the cleanup and the
client starts over with `(1, now)`, allowed. -/
theorem rate_limit_check_reset (N : Nat) (W : Int) (ip : String)
    (c : Nat) (t₀ now : Int) (hout : W ≤ now - t₀) :
    rate_limit_check N W ip now [(ip, (c, t₀))]
      = (true, [(ip, (1, now))]) := by
  have h : ¬ (now - t₀ < W) := by omega
  simp [rate_limit_check, dictFind, dictInsert, List.filter_cons, h]

/-- Iterating `rate_limit_check` while under the limit: every call inside
the window of `t₀` is allowed and only the count moves. -/
theorem rl_run_under_limit (N : Nat) (W : Int) (ip : String) (t₀ : Int)
    (ts : List Int) (c : Nat)
    (hts : ∀ t ∈ ts, t - t₀ < W) (hc : c + ts.length ≤ N) :
    rl_run N W ip ts [(ip, (c, t₀))]
      = (List.replicate ts.length true, [(ip, (c + ts.length, t₀))]) := by
  induction ts generalizing c with
  | nil => simp [rl_run]
  | cons t ts ih =>
    have ht : t - t₀ < W := hts t (List.mem_cons_self t ts)
    have hcN : c < N := by simp at hc; omega
    have hstep := rate_limit_check_under N W ip c t₀ t ht hcN
    have hrest := ih (c + 1) (fun u hu => hts u (List.mem_cons_of_mem t hu))
      (by simp at hc ⊢; omega)
    simp [rl_run, hstep, hrest, List.replicate_succ]
    omega

/-- C4: with `max_requests = N` over window `W`, starting from an empty
rate-limit dict, `N` consecutive calls from one client whose times all lie
within `W` of the first call are all allowed and leave the record at
`(N, t₀)`; an `(N+1)`-th call still inside that window is denied with the
record unchanged; and the first call made once `W` has elapsed is allowed
with the record reset to count 1 and window start at that call's time. -/
theorem rate_limit_window_behavior (N : Nat) (W : Int) (ip : String)
    (t₀ tN tR : Int) (ts : List Int)
    (hN : 0 < N)
    (hlen : ts.length = N - 1)
    (hts : ∀ t ∈ ts, t - t₀ < W)
    (_ht₀ : t₀ - t₀ < W)
    (htN : tN - t₀ < W)
    (htR : W ≤ tR - t₀) :
    (rl_run N W ip (t₀ :: ts) []).1 = List.replicate N true ∧
    (rl_run N W ip (t₀ :: ts) []).2 = [(ip, (N, t₀))] ∧
    rate_limit_check N W ip tN (rl_run N W ip (t₀ :: ts) []).2
      = (false, [(ip, (N, t₀))]) ∧
    rate_limit_check N W ip tR (rl_run N W ip (t₀ :: ts) []).2
      = (true, [(ip, (1, tR))]) := by
  have hfirst := rate_limit_check_fresh N W ip t₀
  have hrest := rl_run_under_limit N W ip t₀ ts 1 hts (by omega)
  have hrun : rl_run N W ip (t₀ :: ts) []
      = (true :: List.replicate ts.length true, [(ip, (1 + ts.length, t₀))]) := by
    simp [rl_run, hfirst, hrest]
  have hn : 1 + ts.length = N := by omega
  rw [hrun, hn]
  refine ⟨?_, rfl, ?_, ?_⟩
  · have : N = ts.length + 1 := by omega
    rw [this, List.replicate_succ]
  · exact rate_limit_check_denied N W ip N t₀ tN htN (le_refl N)
  · exact rate_limit_check_reset N W ip N t₀ tR htR

/-- Witness for C4 with N = 2, W = 10, calls at 0 and 1, a third call at 2
and a reset call at 12. -/
theorem rate_limit_window_behavior_witness :
    (rl_run 2 10 "ip" (0 :: [1]) []).1 = List.replicate 2 true ∧
    (rl_run 2 10 "ip" (0 :: [1]) []).2 = [("ip", (2, 0))] ∧
    rate_limit_check 2 10 "ip" 2 (rl_run 2 10 "ip" (0 :: [1]) []).2
      = (false, [("ip", (2, 0))]) ∧
    rate_limit_check 2 10 "ip" 12 (rl_run 2 10 "ip" (0 :: [1]) []).2
      = (true, [("ip", (1, 12))]) :=
  rate_limit_window_behavior 2 10 "ip" 0 2 12 [1] (by decide) rfl
    (by decide) (by decide) (by decide) (by decide)

/-- C5: `answer_question` never raises — it is a total function — and
whenever the QA-chain boundary (embedding, retrieval, completion) fails,
the failure is caught and the call returns the fixed fallback answer text
with an empty source list. -/
theorem answer_question_never_raises (rf : ResponseFormat)
    (qa : String → Except String QAResult) (question : String) (e : String)
    (hfail : qa question = Except.error e) :
    answer_question rf qa question
      = { answer := FALLBACK_ANSWER, sources := [] } := by
  simp [answer_question, hfail]

/-- Witness for C5: a QA chain that always fails yields the fallback. -/
theorem answer_question_never_raises_witness :
    answer_question
        { max_sources := none, filter_duplicates := none,
          include_metadata := none }
        (fun _ => Except.error "completion timed out") "سؤال"
      = { answer := FALLBACK_ANSWER, sources := [] } :=
  answer_question_never_raises
    { max_sources := none, filter_duplicates := none,
      include_metadata := none }
    (fun _ => Except.error "completion timed out") "سؤال"
    "completion timed out" rfl

/-- C8: `setup_bot` raises the fatal no-documents error exactly when
ingestion produced zero usable documents, and it can only complete
successfully when at least one document was loaded. -/
theorem setup_bot_requires_documents {α : Type} (files : List FileEntry)
    (build : List Doc → Except String α) :
    ((load_documents files).1 = [] →
      setup_bot files build = Except.error NO_DOCUMENTS_MSG) ∧
    (∀ r : α, setup_bot files build = Except.ok r →
      (load_documents files).1 ≠ []) := by
  constructor
  · intro h
    simp [setup_bot, h]
  · intro r h hnil
    simp [setup_bot, hnil] at h

/-- Witness for C8: an empty batch aborts startup with the fatal error,
while a batch with one usable document completes. -/
theorem setup_bot_requires_documents_witness :
    setup_bot ([] : List FileEntry) (fun ds => Except.ok ds.length)
      = Except.error NO_DOCUMENTS_MSG ∧
    (load_documents
        [{ hash := "h1",
           docs := some [{ page_content := "t", metadata := [] }] }]).1
      ≠ [] :=
  ⟨(setup_bot_requires_documents [] (fun ds => Except.ok ds.length)).1 rfl,
   (setup_bot_requires_documents
      [{ hash := "h1",
         docs := some [{ page_content := "t", metadata := [] }] }]
      (fun ds => Except.ok ds.length)).2 1 rfl⟩

/-- Every emitted source copies one input document's content, and its
metadata is either that document's full metadata map or empty, according to
`include_metadata`. -/
theorem build_sources_mem (rf : ResponseFormat) (docs : List Doc)
    (seen : List String) (s : Source)
    (hs : s ∈ build_sources rf docs seen) :
    ∃ d ∈ docs, s.content = d.page_content ∧
      s.metadata
        = (if rf.include_metadata.getD true then d.metadata else []) := by
  induction docs generalizing seen with
  | nil => simp [build_sources] at hs
  | cons d rest ih =>
    simp only [build_sources] at hs
    split at hs
    · obtain ⟨d', hd', h1, h2⟩ := ih seen hs
      exact ⟨d', List.mem_cons_of_mem d hd', h1, h2⟩
    · rcases List.mem_cons.mp hs with h1 | h1
      · refine ⟨d, List.mem_cons_self d rest, ?_, ?_⟩ <;> rw [h1]
      · obtain ⟨d', hd', h2, h3⟩ := ih _ h1
        exact ⟨d', List.mem_cons_of_mem d hd', h2, h3⟩

/-- The source-building loop never emits more sources than it got
documents. -/
theorem build_sources_length_le (rf : ResponseFormat) (docs : List Doc)
    (seen : List String) :
    (build_sources rf docs seen).length ≤ docs.length := by
  induction docs generalizing seen with
  | nil => simp [build_sources]
  | cons d rest ih =>
    simp only [build_sources]
    split
    · exact Nat.le_succ_of_le (ih seen)
    · simp only [List.length_cons]
      exact Nat.succ_le_succ (ih _)

/-- With duplicate filtering on, the emitted contents are pairwise distinct
and avoid the already-seen set. -/
theorem build_sources_nodup (rf : ResponseFormat)
    (hfd : rf.filter_duplicates.getD true = true) (docs : List Doc)
    (seen : List String) :
    ((build_sources rf docs seen).map Source.content).Nodup ∧
    ∀ c ∈ (build_sources rf docs seen).map Source.content, c ∉ seen := by
  induction docs generalizing seen with
  | nil => simp [build_sources]
  | cons d rest ih =>
    simp only [build_sources, hfd, Bool.and_true]
    by_cases h : seen.contains d.page_content = true
    · rw [if_pos h]
      exact ih seen
    · rw [if_neg h]
      obtain ⟨hnd, hni⟩ := ih (d.page_content :: seen)
      simp only [List.map_cons]
      constructor
      · refine List.nodup_cons.mpr ⟨?_, hnd⟩
        intro hmem
        exact hni _ hmem (List.mem_cons_self _ _)
      · intro c hc
        rcases List.mem_cons.mp hc with h1 | h1
        · subst h1
          intro hcs
          exact h (by simpa using hcs)
        · intro hcs
          exact hni c h1 (List.mem_cons_of_mem _ hcs)

/-- C6 counterexample: the source entry returned for a chunk carries the
chunk's entire open-ended metadata map — here with keys "internal_secret"
and "tmp_debug" that no allow-list names (the configuration section read by
the code has no allow-list at all) — so the metadata keys are not restricted
to an allow-listed subset. -/
theorem metadata_passthrough_counterexample :
    (answer_question rf_defaults (qa_const qr_secret) "q").sources
      = [⟨"c", [("internal_secret", "x"), ("tmp_debug", "y")]⟩] := by
  rfl

/-- C6 amended: every source entry of a successful `answer_question` call
carries either the originating chunk's entire metadata map (when
`include_metadata`, default true, is set) or an empty map (when it is
unset); no allow-list filtering of metadata keys is applied. -/
theorem answer_question_metadata_passthrough (rf : ResponseFormat)
    (qa : String → Except String QAResult) (question : String) (r : QAResult)
    (hok : qa question = Except.ok r) (s : Source)
    (hs : s ∈ (answer_question rf qa question).sources) :
    ∃ d ∈ r.source_documents, s.content = d.page_content ∧
      s.metadata
        = (if rf.include_metadata.getD true then d.metadata else []) := by
  simp only [answer_question, hok] at hs
  obtain ⟨d, hd, h1, h2⟩ := build_sources_mem rf _ [] s hs
  exact ⟨d, List.mem_of_mem_take hd, h1, h2⟩

/-- Witness for the amended C6 on a one-chunk retrieval. -/
theorem answer_question_metadata_passthrough_witness :
    ∃ d ∈ qr_kv.source_documents,
      (⟨"c", [("k", "v")]⟩ : Source).content = d.page_content ∧
      (⟨"c", [("k", "v")]⟩ : Source).metadata
        = (if rf_defaults.include_metadata.getD true then d.metadata
           else []) :=
  answer_question_metadata_passthrough rf_defaults (qa_const qr_kv) "q"
    qr_kv rfl ⟨"c", [("k", "v")]⟩
    (by simp [answer_question, qa_const, qr_kv, rf_defaults, build_sources])

/-- C7 counterexample: with `filter_duplicates` configured off, a successful
`answer_question` call returns two source entries with identical content
text, so the deduplication part of the claim fails as stated. -/
theorem sources_duplicate_counterexample :
    (answer_question rf_nofilter (qa_const qr_dup) "q").sources
      = [⟨"dup", []⟩, ⟨"dup", []⟩] := by
  rfl

/-- C7 amended: for every successful `answer_question` call the source list
has length at most the configured `max_sources` (default 5), and — provided
`filter_duplicates` (default true) is set — no two entries share their
content text. -/
theorem answer_question_sources_bounded (rf : ResponseFormat)
    (qa : String → Except String QAResult) (question : String) (r : QAResult)
    (hok : qa question = Except.ok r) :
    (answer_question rf qa question).sources.length
      ≤ rf.max_sources.getD 5 ∧
    (rf.filter_duplicates.getD true = true →
      ((answer_question rf qa question).sources.map Source.content).Nodup) := by
  constructor
  · simp only [answer_question, hok]
    exact le_trans (build_sources_length_le rf _ [])
      (List.length_take_le _ _)
  · intro hfd
    simp only [answer_question, hok]
    exact (build_sources_nodup rf hfd _ []).1

/-- Witness for the amended C7 on a three-chunk retrieval with a repeated
content. -/
theorem answer_question_sources_bounded_witness :
    (answer_question rf_defaults (qa_const qr_aab) "q").sources.length
      ≤ rf_defaults.max_sources.getD 5 ∧
    (rf_defaults.filter_duplicates.getD true = true →
      ((answer_question rf_defaults (qa_const qr_aab)
          "q").sources.map Source.content).Nodup) :=
  answer_question_sources_bounded rf_defaults (qa_const qr_aab) "q" qr_aab rfl

/-- A fresh cache entry short-circuits the whole request handling: the
cached response is returned, no state changes, the wrapped view (and with
it the admission check) is not invoked. -/
theorem handle_ask_hit (bot_available : Bool)
    (bot_answer : String → BotResponse) (question client_ip : String)
    (now ts : Int) (st : ServerState) (resp : BotResponse)
    (hhit : dictFind st.cache (cache_key_of question) = some (resp, ts))
    (hfresh : now - ts < CACHE_DURATION) :
    handle_ask bot_available bot_answer question client_ip now st
      = (Except.ok resp, st, false) := by
  simp [handle_ask, hhit, hfresh]

/-- C1 counterexample: with the client's record at the limit inside a live
window — so that `rate_limit_check` denies it — the full `/api/ask`
handling still answers the request from the fresh cache entry: the verdict
is a success, the rate-limit state is never consulted or changed, and the
wrapped view carrying the admission check is not invoked.  A rate-limited
client is thus answered from the cache, contradicting the claimed
admission-check-first ordering. -/
theorem cache_before_rate_limit_counterexample :
    (rate_limit_check RATE_LIMIT_MAX RATE_LIMIT_WINDOW "1.2.3.4" 10
        [("1.2.3.4", (100, 0))]).1 = false ∧
    handle_ask true (fun _ => ⟨"a", []⟩) "q" "1.2.3.4" 10
        ⟨[("q", (⟨"a", []⟩, 0))], [("1.2.3.4", (100, 0))]⟩
      = (Except.ok ⟨"a", []⟩,
         ⟨[("q", (⟨"a", []⟩, 0))], [("1.2.3.4", (100, 0))]⟩, false) :=
  ⟨rfl, rfl⟩

/-- C1 amended: at query time the response-cache lookup is performed before
the rate-limiter admission check: whenever the raw question has a fresh
cache entry the request is answered from the cache with no rate-limiter
consultation or state change — even for a client the rate limiter would
currently deny — and the admission check runs only when the cache misses or
the entry is expired. -/
theorem ask_cache_lookup_before_rate_limit (bot_available : Bool)
    (bot_answer : String → BotResponse) (question client_ip : String)
    (now ts : Int) (st : ServerState) (resp : BotResponse)
    (hhit : dictFind st.cache (cache_key_of question) = some (resp, ts))
    (hfresh : now - ts < CACHE_DURATION) :
    handle_ask bot_available bot_answer question client_ip now st
      = (Except.ok resp, st, false) :=
  handle_ask_hit bot_available bot_answer question client_ip now ts st resp
    hhit hfresh

/-- Witness for the amended C1: a rate-limited client with a fresh cache
entry is served from the cache. -/
theorem ask_cache_lookup_before_rate_limit_witness :
    handle_ask false (fun _ => ⟨"a", []⟩) "q" "5.6.7.8" 10
        ⟨[("q", (⟨"a", []⟩, 0))], [("5.6.7.8", (100, 0))]⟩
      = (Except.ok ⟨"a", []⟩,
         ⟨[("q", (⟨"a", []⟩, 0))], [("5.6.7.8", (100, 0))]⟩, false) :=
  ask_cache_lookup_before_rate_limit false (fun _ => ⟨"a", []⟩) "q" "5.6.7.8"
    10 0 ⟨[("q", (⟨"a", []⟩, 0))], [("5.6.7.8", (100, 0))]⟩ ⟨"a", []⟩ rfl
    (by decide)

/-- C2 counterexample: the cache key is the raw form value, so "q" and
" q", which differ only in leading whitespace, map to different keys;
concretely, after the response for "q" is cached, a request for " q" one
second later — well within the TTL — still invokes the wrapped computation
instead of sharing the entry. -/
theorem cache_key_not_trimmed_counterexample :
    cache_key_of "q" ≠ cache_key_of " q" ∧
    (cache_response (fun _ => (1 : Nat)) " q" 1
        ((cache_response (fun _ => (1 : Nat)) "q" 0 []).2.1)).2.2 = true :=
  ⟨by decide, rfl⟩

/-- C2 amended: the response-cache key is the raw question text with no
whitespace trimming or any other normalization, so a second request within
the TTL is answered from the first request's entry — without invoking the
computation — exactly when the two raw question texts are identical;
question texts differing only in surrounding whitespace use distinct keys
and therefore distinct cache entries. -/
theorem cache_key_raw_equality {α : Type} (v₁ v₂ : α) (q₁ q₂ : String)
    (t₁ t₂ : Int) (hfresh : t₂ - t₁ < CACHE_DURATION) :
    (cache_response (fun _ => v₂) q₂ t₂
        ((cache_response (fun _ => v₁) q₁ t₁ []).2.1)).2.2 = false
      ↔ q₁ = q₂ := by
  have hc1 : (cache_response (fun _ => v₁) q₁ t₁ []).2.1
      = [(q₁, (v₁, t₁))] := by
    rw [cache_response_miss (fun _ => v₁) q₁ t₁ [] rfl]
    have hkeep : t₁ ≤ CACHE_DURATION + t₁ := by
      simp only [CACHE_DURATION]
      omega
    simp [dictInsert, clean_cache, List.filter_cons, cache_key_of, hkeep]
  by_cases h : q₁ = q₂
  · subst h
    rw [cache_response_hit (fun _ => v₂) q₁ t₂ t₁ _ v₁
      (by rw [hc1]; exact dictFind_cons_self _ _ _) hfresh]
    simp
  · have hfind : dictFind (cache_response (fun _ => v₁) q₁ t₁ []).2.1
        (cache_key_of q₂) = none := by
      rw [hc1]
      simp [dictFind, cache_key_of, h]
    rw [cache_response_miss (fun _ => v₂) q₂ t₂ _ hfind]
    simp [h]

/-- Witness for the amended C2: identical raw texts do share the entry. -/
theorem cache_key_raw_equality_witness :
    ((cache_response (fun _ => (2 : Nat)) "q" 1
        ((cache_response (fun _ => (1 : Nat)) "q" 0 []).2.1)).2.2 = false
      ↔ "q" = "q") :=
  cache_key_raw_equality 1 2 "q" "q" 0 1 (by decide)

/-- C10: when the QA engine degrades to the fixed fallback response, the
`/api/ask` handling caches that fallback under the question's key exactly
like a successful answer: the first request invokes the view and stores the
fallback, and a repeat of the same question within the TTL is answered from
the cache without invoking the view — hence without re-invoking the QA
engine — and without any further state change. -/
theorem fallback_cached_like_success (q ip : String) (t₁ t₂ : Int)
    (hq : ¬ py_strip q = "") (hfresh : t₂ - t₁ < CACHE_DURATION) :
    handle_ask true (fun _ => fallback_response) q ip t₁ ⟨[], []⟩
      = (Except.ok fallback_response,
         ⟨[(q, (fallback_response, t₁))], [(ip, (1, t₁))]⟩, true) ∧
    handle_ask true (fun _ => fallback_response) q ip t₂
        ⟨[(q, (fallback_response, t₁))], [(ip, (1, t₁))]⟩
      = (Except.ok fallback_response,
         ⟨[(q, (fallback_response, t₁))], [(ip, (1, t₁))]⟩, false) := by
  constructor
  · have hkeep : t₁ ≤ CACHE_DURATION + t₁ := by
      simp only [CACHE_DURATION]
      omega
    simp [handle_ask, ask_inner, dictFind, rate_limit_check_fresh, hq,
      dictInsert, clean_cache, List.filter_cons, cache_key_of, hkeep]
  · exact handle_ask_hit true (fun _ => fallback_response) q ip t₂ t₁
      ⟨[(q, (fallback_response, t₁))], [(ip, (1, t₁))]⟩ fallback_response
      (dictFind_cons_self _ _ _) hfresh

/-- Witness for C10 on the question "hello" at times 0 and 1. -/
theorem fallback_cached_like_success_witness :
    handle_ask true (fun _ => fallback_response) "hello" "1.2.3.4" 0 ⟨[], []⟩
      = (Except.ok fallback_response,
         ⟨[("hello", (fallback_response, 0))], [("1.2.3.4", (1, 0))]⟩,
         true) ∧
    handle_ask true (fun _ => fallback_response) "hello" "1.2.3.4" 1
        ⟨[("hello", (fallback_response, 0))], [("1.2.3.4", (1, 0))]⟩
      = (Except.ok fallback_response,
         ⟨[("hello", (fallback_response, 0))], [("1.2.3.4", (1, 0))]⟩,
         false) :=
  fallback_cached_like_success "hello" "1.2.3.4" 0 1 (by decide) (by decide)

/-- Processing one file and then a batch equals processing the combined
batch. -/
theorem load_documents_loop_cons (f : FileEntry) (rest : List FileEntry)
    (d : List Doc) (h : List String) :
    load_documents_loop (f :: rest) d h
      = load_documents_loop rest (load_documents_loop [f] d h).1
          (load_documents_loop [f] d h).2 := by
  cases hdocs : f.docs with
  | none => simp [load_documents_loop, hdocs]
  | some ds =>
    by_cases he : ds.isEmpty = true
    · simp [load_documents_loop, hdocs, he]
    · by_cases hc : f.hash ∈ h
      · simp [load_documents_loop, hdocs, he, hc]
      · simp [load_documents_loop, hdocs, he, hc]

/-- The dedup loop splits over an appended batch. -/
theorem load_documents_loop_append (xs ys : List FileEntry)
    (d : List Doc) (h : List String) :
    load_documents_loop (xs ++ ys) d h
      = load_documents_loop ys (load_documents_loop xs d h).1
          (load_documents_loop xs d h).2 := by
  induction xs generalizing d h with
  | nil => simp [load_documents_loop]
  | cons f rest ih =>
    rw [List.cons_append, load_documents_loop_cons f (rest ++ ys),
      ih, ← load_documents_loop_cons f rest]

/-- A file whose hash is already in the processed set contributes nothing:
the loop state passes over it unchanged. -/
theorem load_documents_loop_skip (f : FileEntry) (rest : List FileEntry)
    (d : List Doc) (h : List String)
    (hseen : h.contains f.hash = true) :
    load_documents_loop (f :: rest) d h = load_documents_loop rest d h := by
  have hmem : f.hash ∈ h := by simpa using hseen
  cases hdocs : f.docs with
  | none => simp [load_documents_loop, hdocs]
  | some ds =>
    by_cases he : ds.isEmpty = true
    · simp [load_documents_loop, hdocs, he]
    · simp [load_documents_loop, hdocs, he, hmem]

/-- The processed-hash set accumulated by the loop never holds a hash
twice. -/
theorem load_documents_loop_hashes_nodup (files : List FileEntry)
    (d : List Doc) (h : List String) (hnd : h.Nodup) :
    (load_documents_loop files d h).2.Nodup := by
  induction files generalizing d h with
  | nil => simpa [load_documents_loop]
  | cons f rest ih =>
    cases hdocs : f.docs with
    | none =>
      rw [show load_documents_loop (f :: rest) d h
            = load_documents_loop rest d h by
          simp [load_documents_loop, hdocs]]
      exact ih d h hnd
    | some ds =>
      by_cases he : ds.isEmpty = true
      · rw [show load_documents_loop (f :: rest) d h
              = load_documents_loop rest d h by
            simp [load_documents_loop, hdocs, he]]
        exact ih d h hnd
      · by_cases hc : f.hash ∈ h
        · rw [show load_documents_loop (f :: rest) d h
                = load_documents_loop rest d h by
              simp [load_documents_loop, hdocs, he, hc]]
          exact ih d h hnd
        · rw [show load_documents_loop (f :: rest) d h
                = load_documents_loop rest (d ++ ds) (f.hash :: h) by
              simp [load_documents_loop, hdocs, he, hc]]
          exact ih (d ++ ds) (f.hash :: h) (List.nodup_cons.mpr ⟨hc, hnd⟩)

/-- C9 counterexample: a single file whose loader yields two documents (as
a multi-page PDF does) is retained once, producing one processed content
hash but two retained documents, so the count of distinct content hashes
does not equal the count of retained documents. -/
theorem dedup_hash_count_counterexample :
    (load_documents [⟨"h", some [⟨"a", []⟩, ⟨"b", []⟩]⟩]).1.length = 2 ∧
    (load_documents [⟨"h", some [⟨"a", []⟩, ⟨"b", []⟩]⟩]).2.length = 1 ∧
    (load_documents [⟨"h", some [⟨"a", []⟩, ⟨"b", []⟩]⟩]).1.length
      ≠ (load_documents [⟨"h", some [⟨"a", []⟩, ⟨"b", []⟩]⟩]).2.length :=
  ⟨rfl, rfl, by decide⟩

/-- C9 amended: a later file whose content hash equals one already
processed contributes no documents to the result — removing it from the
batch changes nothing — and the processed-hash set is duplicate-free, so
the number of distinct content hashes equals the number of retained files
(each of which may contribute several documents), not the number of
retained documents. -/
theorem load_documents_dedup (pre post : List FileEntry) (f : FileEntry)
    (hseen : (load_documents pre).2.contains f.hash = true) :
    load_documents (pre ++ f :: post) = load_documents (pre ++ post) ∧
    (load_documents (pre ++ f :: post)).2.Nodup := by
  constructor
  · unfold load_documents at *
    rw [load_documents_loop_append pre (f :: post) [] [],
      load_documents_loop_append pre post [] [],
      load_documents_loop_skip f post _ _ hseen]
  · exact load_documents_loop_hashes_nodup (pre ++ f :: post) [] []
      List.nodup_nil

/-- Witness for the amended C9: a second file with the hash of the first
contributes nothing. -/
theorem load_documents_dedup_witness :
    load_documents
        ([⟨"h", some [⟨"a", []⟩]⟩] ++ ⟨"h", some [⟨"b", []⟩]⟩ :: [])
      = load_documents ([⟨"h", some [⟨"a", []⟩]⟩] ++ []) ∧
    (load_documents
        ([⟨"h", some [⟨"a", []⟩]⟩] ++ ⟨"h", some [⟨"b", []⟩]⟩ :: [])).2.Nodup :=
  load_documents_dedup [⟨"h", some [⟨"a", []⟩]⟩] []
    ⟨"h", some [⟨"b", []⟩]⟩ rfl

end AiBot
